import Mathlib

/-!
Verification development for the ZulipAgent repository.

Shallow embedding of the scheduling-and-synchronization core:
  - `syncLogToSessionManager` from src/src/context.ts
  - the `sanitize` topic-name normalizer from store.ts / `topicToDir` in src/src/main.ts
  - the events watcher dispatch logic from src/src/events.ts
  - the per-topic busy-flag flows `handleMessage` / `handleEvent` from src/src/main.ts
  - the delivery tail of the agent `run` from agent.ts

External collaborators (the persistent session store, the chat transport,
the turn executor) are modelled by their interfaces exactly as the code
consumes them: the session store is an ordered list of entries with
`getEntries` and `appendMessage` (append at the end), effectful steps are
values of `Except String Unit` supplied as parameters.
-/

namespace ZulipAgent

/-! ## Log and session data model (src/src/context.ts)

`LogMessage` mirrors the `LogMessage` interface of context.ts: every field
optional, as produced by `JSON.parse` of one log.jsonl line.  A log file is
a list of per-line parse outcomes; `none` stands for a line whose JSON is
malformed (`JSON.parse` throws). -/

structure LogMessage where
  date : Option String := none
  ts : Option String := none
  user : Option String := none
  userName : Option String := none
  text : Option String := none
  isBot : Option Bool := none
deriving DecidableEq, Repr

/-- One part of a structured message content array, as scanned by
`syncLogToSessionManager` (`part.type === "text"` carries text). -/
inductive ContentPart where
  | text (t : String)
  | otherPart
deriving DecidableEq, Repr

/-- The `content` of a session message: a string, an array of parts, or
absent (`undefined`). -/
inductive MsgContent where
  | str (s : String)
  | parts (ps : List ContentPart)
  | undef
deriving DecidableEq, Repr

/-- A message held by the session store, with the fields
`syncLogToSessionManager` reads or writes: `role`, `content`, `timestamp`. -/
structure SessionMsg where
  role : String
  content : MsgContent
  timestamp : Int
deriving DecidableEq, Repr

/-- An entry of the session store: `type === "message"` entries carry a
message, all other entry types are opaque to the synchronizer. -/
inductive SessionEntry where
  | message (m : SessionMsg)
  | otherEntry
deriving DecidableEq, Repr

/-! ### Normalization of already-ingested text

context.ts strips the regex
`/^\[\d{4}-\d{2}-\d{2} \d{2}:\d{2}:\d{2}[+-]\d{2}:\d{2}\] /`
from each scanned entry.  The match, when it exists, is always exactly the
first 28 characters. -/

/-- Does the character list begin with the 28-character timestamp-bracket
pattern of context.ts, `[dddd-dd-dd dd:dd:dd(+|-)dd:dd] `? -/
def startsWithTsStamp (cs : List Char) : Bool :=
  match cs with
  | '[' :: y1 :: y2 :: y3 :: y4 :: '-' :: mo1 :: mo2 :: '-' :: d1 :: d2 :: ' ' ::
    h1 :: h2 :: ':' :: mi1 :: mi2 :: ':' :: s1 :: s2 :: sg ::
    o1 :: o2 :: ':' :: o3 :: o4 :: ']' :: ' ' :: _ =>
      y1.isDigit && y2.isDigit && y3.isDigit && y4.isDigit &&
      mo1.isDigit && mo2.isDigit && d1.isDigit && d2.isDigit &&
      h1.isDigit && h2.isDigit && mi1.isDigit && mi2.isDigit &&
      s1.isDigit && s2.isDigit && (sg == '+' || sg == '-') &&
      o1.isDigit && o2.isDigit && o3.isDigit && o4.isDigit
  | _ => false

/-- `content.replace(/^\[...\] /, "")`: strip the 28-character
timestamp-bracket match when present, otherwise leave the string alone. -/
def stripTsStamp (s : String) : String :=
  if startsWithTsStamp s.data then String.mk (s.data.drop 28) else s

/-- The normalized user-turn texts one session entry contributes to the
`existingMessages` set (the body of the `getEntries` scan loop). -/
def entryTexts : SessionEntry → List String
  | .message m =>
      if m.role == "user" then
        match m.content with
        | .str s => [stripTsStamp s]
        | .parts ps =>
            ps.filterMap fun p =>
              match p with
              | .text t => some (stripTsStamp t)
              | .otherPart => none
        | .undef => []
      else []
  | .otherEntry => []

/-- The `existingMessages` set built from the whole session history.
A JS `Set<string>` is modelled as a list with string-equality membership. -/
def buildExisting (entries : List SessionEntry) : List String :=
  entries.flatMap entryTexts

/-! ### JavaScript truthiness helpers -/

/-- JS falsiness of an optional string field: `undefined` or `""`. -/
def jsFalsy : Option String → Bool
  | none => true
  | some s => s == ""

/-- `a || d` for an optional string: the default when absent or empty. -/
def jsOr (o : Option String) (d : String) : String :=
  match o with
  | none => d
  | some s => if s == "" then d else s

/-- `new Date(date).getTime() || Date.now()`: the parsed time unless the
parse failed (NaN) or yielded 0, in which case the current time. -/
def jsOrNow (o : Option Int) (now : Int) : Int :=
  match o with
  | none => now
  | some t => if t == 0 then now else t

/-- `excludeTs && ts === excludeTs` for the skip of the live message. -/
def excludedBy (ex : Option String) (ts : String) : Bool :=
  match ex with
  | none => false
  | some e => if e == "" then false else ts == e

/-- The composed backfill text of one log message:
`"[userName-or-user-or-unknown]: text"`. -/
def composedText (m : LogMessage) : String :=
  "[" ++ jsOr m.userName (jsOr m.user "unknown") ++ "]: " ++ jsOr m.text ""

/-- A staged backfill entry: parsed timestamp plus composed text (the
`{timestamp, message}` pair pushed onto `newMessages`). -/
structure StagedMsg where
  timestamp : Int
  text : String
deriving DecidableEq, Repr

/-- The session entry appended for a staged message: a user message whose
content is one text part. -/
def stagedToEntry (st : StagedMsg) : SessionEntry :=
  .message { role := "user", content := .parts [.text st.text], timestamp := st.timestamp }

/-- The per-line loop of `syncLogToSessionManager`: walk the parsed log
lines, skipping malformed lines, lines with falsy `ts` or `date`, the
excluded live message, bot messages, and lines whose composed text is
already in the evolving `existingMessages` set; stage everything else and
add its text to the set. `pd` models `new Date(s).getTime()` with `none`
for NaN. -/
def syncLoop (pd : String → Option Int) (now : Int) (ex : Option String) :
    List (Option LogMessage) → List String → List StagedMsg
  | [], _ => []
  | none :: rest, existing => syncLoop pd now ex rest existing
  | some m :: rest, existing =>
      if jsFalsy m.ts || jsFalsy m.date then syncLoop pd now ex rest existing
      else if excludedBy ex (m.ts.getD "") then syncLoop pd now ex rest existing
      else if m.isBot.getD false then syncLoop pd now ex rest existing
      else
        let messageText := composedText m
        if existing.contains messageText then syncLoop pd now ex rest existing
        else
          { timestamp := jsOrNow (pd (m.date.getD "")) now, text := messageText } ::
            syncLoop pd now ex rest (messageText :: existing)

/-- The comparator `(a, b) => a.timestamp - b.timestamp` as a boolean
order on staged messages. -/
def stagedLE (a b : StagedMsg) : Bool := a.timestamp ≤ b.timestamp

/-- `syncLogToSessionManager(sessionManager, topicDir, excludeTs)` from
src/src/context.ts, over the parsed lines of an existing log.jsonl: build
the normalized set from the session entries, stage the new user turns,
sort them ascending by timestamp (JS `Array.sort` is stable, modelled by
`List.mergeSort`) and append them; return the new entry list and the count. -/
def syncLogToSessionManager (pd : String → Option Int) (now : Int)
    (entries : List SessionEntry) (lines : List (Option LogMessage))
    (ex : Option String) : List SessionEntry × Nat :=
  let existing := buildExisting entries
  let newMessages := syncLoop pd now ex lines existing
  if newMessages.isEmpty then (entries, 0)
  else
    let sorted := newMessages.mergeSort stagedLE
    (entries ++ sorted.map stagedToEntry, sorted.length)

/-! ## Topic-name sanitizer (store.ts `ChannelStore.sanitize`, duplicated
as `topicToDir` in src/src/main.ts)

```
name.replace(/[<>:"/\\|?*]/g, "_").replace(/\s+/g, "-").toLowerCase().slice(0, 100)
```

`toLowerCase` is modelled in the ASCII range by core `Char.toLower`
(the claims below about the output only concern ASCII upper-case letters);
`\s` is modelled by the full JS whitespace class. -/

/-- Membership in the regex character class `[<>:"/\\|?*]`, by code point:
60 `<`, 62 `>`, 58 `:`, 34 `"`, 47 `/`, 92 backslash, 124 `|`, 63 `?`, 42 `*`. -/
def isBadChar (c : Char) : Bool :=
  c.toNat == 60 || c.toNat == 62 || c.toNat == 58 || c.toNat == 34 ||
  c.toNat == 47 || c.toNat == 92 || c.toNat == 124 || c.toNat == 63 || c.toNat == 42

/-- The JS regex `\s` character class (ECMA-262 WhiteSpace plus
LineTerminator): tab, LF, VT, FF, CR, space, NBSP, Ogham space, the
U+2000 to U+200A range, LS, PS, NNBSP, MMSP, ideographic space, BOM. -/
def isJsSpace (c : Char) : Bool :=
  c.toNat == 9 || c.toNat == 10 || c.toNat == 11 || c.toNat == 12 ||
  c.toNat == 13 || c.toNat == 32 || c.toNat == 0xa0 || c.toNat == 0x1680 ||
  (decide (0x2000 ≤ c.toNat) && decide (c.toNat ≤ 0x200a)) ||
  c.toNat == 0x2028 || c.toNat == 0x2029 || c.toNat == 0x202f ||
  c.toNat == 0x205f || c.toNat == 0x3000 || c.toNat == 0xfeff

/-- `replace(/[<>:"/\\|?*]/g, "_")`, character by character. -/
def replBad (c : Char) : Char :=
  if isBadChar c then '_' else c

/-- Worker for `replace(/\s+/g, "-")`: `prevSpace` records whether the
previous character belonged to a whitespace run that already emitted its
dash. -/
def collapseWsAux (prevSpace : Bool) : List Char → List Char
  | [] => []
  | c :: cs =>
      if isJsSpace c then
        if prevSpace then collapseWsAux true cs
        else '-' :: collapseWsAux true cs
      else c :: collapseWsAux false cs

/-- `replace(/\s+/g, "-")`: every maximal run of whitespace becomes one
single dash. -/
def collapseWs (l : List Char) : List Char := collapseWsAux false l

/-- The full sanitizer on character lists: bad-character replacement, then
whitespace collapsing, then lower-casing, then `slice(0, 100)`. -/
def sanitizeL (cs : List Char) : List Char :=
  ((collapseWs (cs.map replBad)).map Char.toLower).take 100

/-- `ChannelStore.sanitize` / `topicToDir`. -/
def sanitize (s : String) : String :=
  String.mk (sanitizeL s.data)

/-! ## Events watcher (src/src/events.ts) -/

/-- The tagged trigger-event variants of events.ts (`MomEvent`). -/
inductive MomEvent where
  | immediate (stream topic text : String)
  | oneShot (stream topic text atIso : String)
  | periodic (stream topic text schedule timezone : String)
deriving DecidableEq, Repr

/-- The `type` string of an event as used in the wake message. -/
def typeStr : MomEvent → String
  | .immediate .. => "immediate"
  | .oneShot .. => "one-shot"
  | .periodic .. => "periodic"

/-- The schedule-or-time component of the wake message: `at` for one-shot,
`schedule` for periodic, empty for immediate. -/
def scheduleStr : MomEvent → String
  | .immediate .. => ""
  | .oneShot _ _ _ a => a
  | .periodic _ _ _ sch _ => sch

/-- The `text` field of an event. -/
def eventText : MomEvent → String
  | .immediate _ _ t => t
  | .oneShot _ _ t _ => t
  | .periodic _ _ t _ _ => t

/-- The formatted wake message
`[EVENT:filename:type:schedule-or-time] text` built in `execute`. -/
def eventMessage (filename : String) (ev : MomEvent) : String :=
  "[EVENT:" ++ filename ++ ":" ++ typeStr ev ++ ":" ++ scheduleStr ev ++ "] " ++ eventText ev

/-- The observable actions of `EventsWatcher.execute`. -/
inductive ExecAction where
  | requeue (delayMs : Nat)
  | invokeHandler (msg : String)
  | deleteSourceFile
deriving DecidableEq, Repr

/-- `EventsWatcher.execute(filename, event, deleteAfter)`: when the
handler reports the topic busy, re-queue after 10000 ms and do nothing
else; otherwise invoke the handler with the wake message (fire-and-forget:
`handlerResult`, the eventual outcome of the handler promise, is only
logged by the attached catch and never influences control flow) and then
delete the source file when `deleteAfter` is set. -/
def executeActs (filename : String) (ev : MomEvent) (deleteAfter : Bool)
    (busy : Bool) (handlerResult : Except String Unit) : List ExecAction :=
  if busy then [.requeue 10000]
  else
    [.invokeHandler (eventMessage filename ev)] ++
      (if deleteAfter then [.deleteSourceFile] else [])

/-- The `deleteAfter` argument passed to `execute` at every call site of
events.ts: `handleImmediate` passes `true`, both firing paths of
`handleOneShot` (past-due fire and timer callback) pass `true`, the cron
callback of `handlePeriodic` passes `false`. -/
def callSiteDeleteAfter : MomEvent → Bool
  | .periodic .. => false
  | _ => true

/-- The immediate outcome of `handleOneShot` for a parsed one-shot event. -/
inductive OneShotAction where
  | fireNow
  | deleteOnly
  | scheduleTimer (delay : Int)
deriving DecidableEq, Repr

/-- `EventsWatcher.handleOneShot`: `delay = firesAt - now`; when the delay
is not positive, fire immediately if the file modification time is after
the watcher start time, otherwise (stale file, or `statSync` threw,
modelled by `mtime = none`) just delete the file; when the delay is
positive, schedule a deferred timer for it. -/
def handleOneShot (startTime now : Int) (triggerTime : Int)
    (mtime : Option Int) : OneShotAction :=
  let delay := triggerTime - now
  if delay ≤ 0 then
    match mtime with
    | some m => if startTime < m then .fireNow else .deleteOnly
    | none => .deleteOnly
  else .scheduleTimer delay

/-! ### Schedule registry (the `timers` and `crons` maps) -/

/-- The handle maps of `EventsWatcher`: the key sets of `timers` (pending
one-shot timeouts) and `crons` (recurring jobs), both keyed by filename. -/
structure Registry where
  timers : List String
  crons : List String
deriving DecidableEq, Repr

/-- `EventsWatcher.cancelScheduled(filename)`: clear and remove any timer
and any cron job registered under the filename. -/
def cancelScheduled (r : Registry) (f : String) : Registry :=
  { timers := r.timers.filter (· ≠ f), crons := r.crons.filter (· ≠ f) }

/-- `delay <= 0` of `handleOneShot`, with `pd` modelling
`new Date(at).getTime()` (`none` for NaN, for which the comparison is
false and the timer branch is taken). -/
def delayLE0 (pd : String → Option Int) (now : Int) (a : String) : Bool :=
  match pd a with
  | some t => t - now ≤ 0
  | none => false

/-- The effect of `handleFile` dispatch on the handle maps, per variant:
immediate events never register a handle; a one-shot registers a timer
under its filename exactly when its delay is positive (`Map.set`,
modelled as remove-then-cons); a periodic registers a cron job exactly
when the cron constructor accepts the schedule (`cronOk`). -/
def dispatchRegistry (pd : String → Option Int) (cronOk : String → String → Bool)
    (now : Int) (r : Registry) (f : String) (ev : MomEvent) : Registry :=
  match ev with
  | .immediate .. => r
  | .oneShot _ _ _ a =>
      if delayLE0 pd now a then r
      else { r with timers := f :: r.timers.filter (· ≠ f) }
  | .periodic _ _ _ sch tz =>
      if cronOk sch tz then { r with crons := f :: r.crons.filter (· ≠ f) } else r

/-- `EventsWatcher.handleFileChange(filename)` as it affects the handle
maps.  `content` is the observed state of the file: `none` when the file
no longer exists (the notification is a deletion: `handleDelete`, i.e.
`cancelScheduled`); `some none` when the file is present but reading or
parsing it failed after the retries (the handle was still cancelled
first); `some (some ev)` when it parsed to a valid event, which is
dispatched after the cancellation. -/
def handleFileChange (pd : String → Option Int) (cronOk : String → String → Bool)
    (now : Int) (r : Registry) (f : String)
    (content : Option (Option MomEvent)) : Registry :=
  match content with
  | none => cancelScheduled r f
  | some none => cancelScheduled r f
  | some (some ev) => dispatchRegistry pd cronOk now (cancelScheduled r f) f ev

/-- The number of scheduled handles registered under one filename,
across both maps. -/
def handleCount (r : Registry) (f : String) : Nat :=
  r.timers.count f + r.crons.count f

/-! ## Per-topic turn flows (src/src/main.ts)

`handleMessage` (from the `store.logMessage` call on) and
`eventHandler.handleEvent`, with every awaited effect supplied as an
`Except String Unit` outcome parameter. -/

/-- The observable result of one `handleMessage` / `handleEvent` call:
what was appended to log.jsonl, what was sent to the transport, whether
the turn executor ran, the sequence of writes to the running flag, the
final value of the flag, and the error the call rejected with, if any. -/
structure FlowResult where
  logAppended : List LogMessage
  sent : List String
  ranTurn : Bool
  flagWrites : List Bool
  finalRunning : Bool
  thrown : Option String
deriving DecidableEq, Repr

/-- The fixed busy notice of `handleMessage`. -/
def stillWorkingNotice : String := "⏳ Still working on a previous request..."

/-- `handleMessage` from the `store.logMessage` call on (the earlier
trigger-word and message-type guards return before touching any state).
`running0` is the running flag of the topic state; `dedupeHit` is whether
`ChannelStore.logMessage` found the message ts in its `recentlyLogged`
map and skipped the append; `logRes`, `busySendRes`, `typingOnRes`,
`runRes`, `errNoticeRes`, `typingOffRes` are the outcomes of the awaited
steps (`appendFile`, the busy notice send, `setTyping(true)`,
`runner.run`, the catch-block error send, `setTyping(false)`).  The
catch block swallows the failure of its own send; the finally block
clears the flag and then awaits `setTyping(false)`, whose failure is the
only error the call can still reject with after entering the try. -/
def handleMessageFlow (running0 dedupeHit : Bool) (e : LogMessage)
    (logRes busySendRes typingOnRes runRes errNoticeRes typingOffRes :
      Except String Unit) : FlowResult :=
  match (if dedupeHit then Except.ok () else logRes) with
  | .error er =>
      { logAppended := [], sent := [], ranTurn := false,
        flagWrites := [], finalRunning := running0, thrown := some er }
  | .ok _ =>
    let appended := if dedupeHit then [] else [e]
    if running0 then
      { logAppended := appended, sent := [stillWorkingNotice], ranTurn := false,
        flagWrites := [], finalRunning := running0,
        thrown := match busySendRes with | .error er => some er | .ok _ => none }
    else
      let (ran, bodyErr) :=
        match typingOnRes with
        | .error er => (false, some er)
        | .ok _ =>
            match runRes with
            | .error er => (true, some er)
            | .ok _ => (true, none)
      let errSends :=
        match bodyErr with
        | some er => ["❌ Error: " ++ er]
        | none => []
      { logAppended := appended, sent := errSends, ranTurn := ran,
        flagWrites := [true, false], finalRunning := false,
        thrown := match typingOffRes with | .error er => some er | .ok _ => none }

/-- `eventHandler.handleEvent` of src/src/main.ts: return at once when
the topic is already running; otherwise set the flag, run the turn in a
try whose catch sends a best-effort error notice (its own failure
swallowed), and clear the flag in the finally.  The call itself never
rejects. -/
def handleEventFlow (running0 : Bool)
    (runRes errNoticeRes : Except String Unit) : FlowResult :=
  if running0 then
    { logAppended := [], sent := [], ranTurn := false,
      flagWrites := [], finalRunning := running0, thrown := none }
  else
    let errSends :=
      match runRes with
      | .error er => ["❌ Event error: " ++ er]
      | .ok _ => []
    { logAppended := [], sent := errSends, ranTurn := true,
      flagWrites := [true, false], finalRunning := false, thrown := none }

/-! ## Delivery tail of the agent `run` (agent.ts)

After `session.prompt` resolves, `run` extracts the final assistant text
and then (lines 498-523): suppresses delivery when the trimmed text is
`[SILENT]` or starts with it, otherwise delivers non-empty text and logs
it as a bot entry; finally, when the stop reason is `"error"` and the
error message is truthy, a best-effort error notice is also delivered. -/

/-- JS `String.prototype.trim()`: strip the JS whitespace class from both
ends. -/
def jsTrim (s : String) : String :=
  String.mk (((s.data.dropWhile isJsSpace).reverse.dropWhile isJsSpace).reverse)

/-- JS `String.prototype.startsWith(p)`. -/
def jsStartsWith (s p : String) : Bool :=
  p.data.isPrefixOf s.data

/-- JS truthiness of the optional `errorMessage` string. -/
def jsTruthyOpt : Option String → Bool
  | none => false
  | some s => !(s == "")

/-- The error-notice deliveries of the run tail. -/
def errNoticeSends (stopReason : String) (errorMessage : Option String) : List String :=
  if stopReason == "error" && jsTruthyOpt errorMessage then
    ["❌ Error: " ++ errorMessage.getD ""]
  else []

/-- The delivery tail of `run`: first component is the list of
`ctx.respond` calls (outbound messages), second is the list of texts
appended to log.jsonl as bot entries via `logBotResponse`. -/
def runTail (finalText : String) (stopReason : String)
    (errorMessage : Option String) : List String × List String :=
  let t := jsTrim finalText
  let (resp, logb) :=
    if t == "[SILENT]" || jsStartsWith t "[SILENT]" then
      (([] : List String), ([] : List String))
    else if !(t == "") then ([finalText], [finalText])
    else ([], [])
  (resp ++ errNoticeSends stopReason errorMessage, logb)

/-! ## Helper lemmas about the synchronizer -/

/-- The structural filters of the sync loop (everything before the
duplicate check): truthy `ts` and `date`, not the excluded live message,
not bot-authored. -/
def passesFilters (ex : Option String) (m : LogMessage) : Prop :=
  (jsFalsy m.ts || jsFalsy m.date) = false ∧
  excludedBy ex (m.ts.getD "") = false ∧
  m.isBot.getD false = false

instance (ex : Option String) (m : LogMessage) : Decidable (passesFilters ex m) :=
  inferInstanceAs (Decidable (_ ∧ _ ∧ _))

/-- The timestamp of a session entry (0 for non-message entries). -/
def entryTimestamp : SessionEntry → Int
  | .message m => m.timestamp
  | .otherEntry => 0

/-- One unfolding step of `syncLoop` for a line that passes every
structural filter: the line is staged or deduplicated according to the
`existingMessages` set. -/
theorem syncLoop_cons_passes (pd : String → Option Int) (now : Int) (ex : Option String)
    (m : LogMessage) (rest : List (Option LogMessage)) (existing : List String)
    (hp : passesFilters ex m) :
    syncLoop pd now ex (some m :: rest) existing =
      if existing.contains (composedText m) then syncLoop pd now ex rest existing
      else
        { timestamp := jsOrNow (pd (m.date.getD "")) now, text := composedText m } ::
          syncLoop pd now ex rest (composedText m :: existing) := by
  obtain ⟨h1, h2, h3⟩ := hp
  rw [syncLoop]
  simp only [h1, h2, h3, Bool.false_eq_true, if_false]

/-- One unfolding step of `syncLoop` for a line one of the structural
filters skips. -/
theorem syncLoop_cons_skip (pd : String → Option Int) (now : Int) (ex : Option String)
    (m : LogMessage) (rest : List (Option LogMessage)) (existing : List String)
    (hp : ¬passesFilters ex m) :
    syncLoop pd now ex (some m :: rest) existing = syncLoop pd now ex rest existing := by
  rw [syncLoop]
  by_cases h1 : (jsFalsy m.ts || jsFalsy m.date) = true
  · simp [h1]
  · by_cases h2 : excludedBy ex (m.ts.getD "") = true
    · simp [h1, h2]
    · by_cases h3 : m.isBot.getD false = true
      · simp [h1, h2, h3]
      · exact absurd ⟨by simpa using h1, by simpa using h2, by simpa using h3⟩ hp

/-- Every staged entry's text is the composed text of some log line that
parsed. -/
theorem syncLoop_text_src (pd : String → Option Int) (now : Int) (ex : Option String) :
    ∀ (lines : List (Option LogMessage)) (existing : List String) (st : StagedMsg),
      st ∈ syncLoop pd now ex lines existing →
      ∃ m, some m ∈ lines ∧ st.text = composedText m := by
  intro lines
  induction lines with
  | nil => intro existing st h; simp [syncLoop] at h
  | cons hd rest ih =>
    intro existing st h
    match hd with
    | none =>
      rw [syncLoop] at h
      obtain ⟨m, hm, hts⟩ := ih existing st h
      exact ⟨m, List.mem_cons_of_mem _ hm, hts⟩
    | some m =>
      by_cases hp : passesFilters ex m
      · rw [syncLoop_cons_passes pd now ex m rest existing hp] at h
        by_cases h4 : existing.contains (composedText m) = true
        · rw [if_pos h4] at h
          obtain ⟨m', hm, hts⟩ := ih existing st h
          exact ⟨m', List.mem_cons_of_mem _ hm, hts⟩
        · rw [if_neg h4] at h
          rcases List.mem_cons.mp h with h | h
          · exact ⟨m, List.mem_cons_self _ _, by rw [h]⟩
          · obtain ⟨m', hm, hts⟩ := ih _ st h
            exact ⟨m', List.mem_cons_of_mem _ hm, hts⟩
      · rw [syncLoop_cons_skip pd now ex m rest existing hp] at h
        obtain ⟨m', hm, hts⟩ := ih existing st h
        exact ⟨m', List.mem_cons_of_mem _ hm, hts⟩

/-- When every line that passes the structural filters already has its
composed text in the `existingMessages` set, the loop stages nothing. -/
theorem syncLoop_eq_nil (pd : String → Option Int) (now : Int) (ex : Option String) :
    ∀ (lines : List (Option LogMessage)) (existing : List String),
      (∀ m, some m ∈ lines → passesFilters ex m → composedText m ∈ existing) →
      syncLoop pd now ex lines existing = [] := by
  intro lines
  induction lines with
  | nil => intro existing _; rfl
  | cons hd rest ih =>
    intro existing hcov
    match hd with
    | none =>
      rw [syncLoop]
      exact ih existing fun m hm hp => hcov m (List.mem_cons_of_mem _ hm) hp
    | some m =>
      by_cases hp : passesFilters ex m
      · have hmem : composedText m ∈ existing := hcov m (List.mem_cons_self _ _) hp
        have h4 : existing.contains (composedText m) = true := by
          simpa [List.contains] using List.elem_eq_true_of_mem hmem
        rw [syncLoop_cons_passes pd now ex m rest existing hp, if_pos h4]
        exact ih existing fun m' hm hp' => hcov m' (List.mem_cons_of_mem _ hm) hp'
      · rw [syncLoop_cons_skip pd now ex m rest existing hp]
        exact ih existing fun m' hm hp' => hcov m' (List.mem_cons_of_mem _ hm) hp'

/-- Any line that passes the structural filters ends up covered: its
composed text was already in the set, or it is among the staged texts. -/
theorem syncLoop_covers (pd : String → Option Int) (now : Int) (ex : Option String) :
    ∀ (lines : List (Option LogMessage)) (existing : List String) (m : LogMessage),
      some m ∈ lines → passesFilters ex m →
      composedText m ∈ existing ∨
        composedText m ∈ (syncLoop pd now ex lines existing).map StagedMsg.text := by
  intro lines
  induction lines with
  | nil => intro existing m hm; exact absurd hm (by simp)
  | cons hd rest ih =>
    intro existing m hm hp
    rcases List.mem_cons.mp hm with heq | hmem
    · -- the line in question is at the head
      cases heq
      rw [syncLoop_cons_passes pd now ex m rest existing hp]
      by_cases h4 : existing.contains (composedText m) = true
      · left
        simpa [List.contains] using h4
      · rw [if_neg h4]
        right
        simp
    · -- the line in question is further down; step over the head
      match hd with
      | none =>
        rw [syncLoop]
        exact ih existing m hmem hp
      | some l =>
        by_cases hpl : passesFilters ex l
        · rw [syncLoop_cons_passes pd now ex l rest existing hpl]
          by_cases h4 : existing.contains (composedText l) = true
          · rw [if_pos h4]
            exact ih existing m hmem hp
          · rw [if_neg h4]
            rcases ih (composedText l :: existing) m hmem hp with hin | hin
            · rcases List.mem_cons.mp hin with heq | hin'
              · right; simp [heq]
              · exact Or.inl hin'
            · right
              rw [List.map_cons]
              exact List.mem_cons_of_mem _ hin
        · rw [syncLoop_cons_skip pd now ex l rest existing hpl]
          exact ih existing m hmem hp

/-- Structural unfolding of `syncLogToSessionManager`. -/
theorem syncLog_eq (pd : String → Option Int) (now : Int) (entries : List SessionEntry)
    (lines : List (Option LogMessage)) (ex : Option String) :
    syncLogToSessionManager pd now entries lines ex =
      if (syncLoop pd now ex lines (buildExisting entries)).isEmpty then (entries, 0)
      else
        (entries ++
            ((syncLoop pd now ex lines (buildExisting entries)).mergeSort stagedLE).map
              stagedToEntry,
          ((syncLoop pd now ex lines (buildExisting entries)).mergeSort stagedLE).length) :=
  rfl

/-- The history returned by a sync is always the old entries followed by
the sorted staged block (empty when nothing was staged). -/
theorem syncLog_fst (pd : String → Option Int) (now : Int) (entries : List SessionEntry)
    (lines : List (Option LogMessage)) (ex : Option String) :
    (syncLogToSessionManager pd now entries lines ex).1 =
      entries ++
        ((syncLoop pd now ex lines (buildExisting entries)).mergeSort stagedLE).map
          stagedToEntry := by
  rw [syncLog_eq]
  by_cases hS : (syncLoop pd now ex lines (buildExisting entries)).isEmpty = true
  · rw [if_pos hS, List.isEmpty_iff.mp hS]
    simp
  · rw [if_neg hS]

/-- The count returned by a sync is the number of staged messages. -/
theorem syncLog_snd (pd : String → Option Int) (now : Int) (entries : List SessionEntry)
    (lines : List (Option LogMessage)) (ex : Option String) :
    (syncLogToSessionManager pd now entries lines ex).2 =
      (syncLoop pd now ex lines (buildExisting entries)).length := by
  rw [syncLog_eq]
  by_cases hS : (syncLoop pd now ex lines (buildExisting entries)).isEmpty = true
  · rw [if_pos hS, List.isEmpty_iff.mp hS]
    rfl
  · rw [if_neg hS]
    simp

/-- The comparator is transitive. -/
theorem stagedLE_trans (a b c : StagedMsg) :
    stagedLE a b → stagedLE b c → stagedLE a c := by
  simp only [stagedLE, decide_eq_true_eq]
  omega

/-- The comparator is total. -/
theorem stagedLE_total (a b : StagedMsg) : stagedLE a b || stagedLE b a := by
  simp only [stagedLE, Bool.or_eq_true, decide_eq_true_eq]
  omega

/-! ## Concrete inputs used by witnesses and counterexamples -/

/-- A date parser assigning time 5 to every string. -/
def pdFive : String → Option Int := fun _ => some 5

/-- A date parser distinguishing three dates, giving timestamps 30, 10, 20. -/
def pdThree : String → Option Int := fun s =>
  if s == "d3" then some 30 else if s == "d1" then some 10 else
  if s == "d2" then some 20 else none

/-- An ordinary user log line. -/
def mAlice : LogMessage :=
  { date := some "d", ts := some "1", user := some "u", userName := some "alice",
    text := some "hi", isBot := some false }

/-- A log line whose display name mimics the timestamp-bracket pattern,
so that its composed text `[2025-01-01 12:00:00+08:00] x]: hi` itself
begins with the pattern the normalizer strips. -/
def mEvil : LogMessage :=
  { date := some "d", ts := some "2", user := some "u",
    userName := some "2025-01-01 12:00:00+08:00] x", text := some "hi",
    isBot := some false }

/-- A log line carrying an identity (`ts`) but no timestamp (`date`). -/
def mNoDate : LogMessage :=
  { ts := some "1", user := some "u", text := some "hi" }

/-- A bot-authored log line. -/
def mBot : LogMessage :=
  { date := some "d", ts := some "3", user := some "bot", text := some "done",
    isBot := some true }

/-- Three valid lines in file order T3, T1, T2 (dates d3, d1, d2). -/
def linesT312 : List (Option LogMessage) :=
  [some { date := some "d3", ts := some "a", user := some "u", text := some "ta",
          isBot := some false },
   some { date := some "d1", ts := some "b", user := some "u", text := some "tb",
          isBot := some false },
   some { date := some "d2", ts := some "c", user := some "u", text := some "tc",
          isBot := some false }]

/-! ## Claim C3 -/

/-- C3: the entries staged by `syncLogToSessionManager` are appended to
the history (existing entries are untouched) in ascending order of their
parsed timestamps, the call returns the number of entries appended, and a
return of 0 means the history is unchanged.  The appended block is the
timestamp-sort of the staged messages, independent of the file order of
the lines. -/
theorem sync_appends_sorted_and_counts (pd : String → Option Int) (now : Int)
    (entries : List SessionEntry) (lines : List (Option LogMessage)) (ex : Option String) :
    (syncLogToSessionManager pd now entries lines ex).1 =
      entries ++
        ((syncLoop pd now ex lines (buildExisting entries)).mergeSort stagedLE).map
          stagedToEntry ∧
    (syncLogToSessionManager pd now entries lines ex).2 =
      (syncLoop pd now ex lines (buildExisting entries)).length ∧
    List.Pairwise (fun a b => entryTimestamp a ≤ entryTimestamp b)
      (((syncLoop pd now ex lines (buildExisting entries)).mergeSort stagedLE).map
        stagedToEntry) ∧
    ((syncLogToSessionManager pd now entries lines ex).2 = 0 →
      (syncLogToSessionManager pd now entries lines ex).1 = entries) := by
  have hsorted :
      List.Pairwise (fun a b => entryTimestamp a ≤ entryTimestamp b)
        (((syncLoop pd now ex lines (buildExisting entries)).mergeSort stagedLE).map
          stagedToEntry) := by
    rw [List.pairwise_map]
    have h := List.sorted_mergeSort stagedLE_trans stagedLE_total
      (syncLoop pd now ex lines (buildExisting entries))
    exact h.imp fun hab => by simpa [stagedLE, stagedToEntry, entryTimestamp] using hab
  refine ⟨syncLog_fst pd now entries lines ex, syncLog_snd pd now entries lines ex,
    hsorted, ?_⟩
  intro h0
  rw [syncLog_snd] at h0
  rw [syncLog_fst, List.length_eq_zero.mp h0]
  simp

/-- Witness for C3: on an empty log the call returns 0 and the history
(here `[SessionEntry.otherEntry]`) is unchanged. -/
theorem sync_appends_sorted_and_counts_witness :
    (syncLogToSessionManager pdFive 0 [SessionEntry.otherEntry] [] none).1 =
      [SessionEntry.otherEntry] :=
  (sync_appends_sorted_and_counts pdFive 0 [SessionEntry.otherEntry] [] none).2.2.2 rfl

/-! ## Claim C2 -/

/-- Counterexample to C2 as stated: with the log consisting of the single
line `mEvil`, whose composed text itself begins with the timestamp-bracket
pattern, the first sync appends it, the normalizer then strips the
leading pattern from the stored entry, and a second sync no longer finds
the composed text in the normalized set: the second call returns 1, not
0, and appends a duplicate entry. -/
theorem sync_idempotent_cex :
    (syncLogToSessionManager pdFive 5
        (syncLogToSessionManager pdFive 5 [] [some mEvil] none).1 [some mEvil] none).2 = 1 ∧
    (syncLogToSessionManager pdFive 5
          (syncLogToSessionManager pdFive 5 [] [some mEvil] none).1 [some mEvil] none).1 ≠
        (syncLogToSessionManager pdFive 5 [] [some mEvil] none).1 := by
  have hfirst : syncLogToSessionManager pdFive 5 [] [some mEvil] none =
      ([stagedToEntry { timestamp := 5, text := composedText mEvil }], 1) := by
    rw [syncLog_eq]
    have hloop : syncLoop pdFive 5 none [some mEvil] (buildExisting []) =
        [{ timestamp := 5, text := composedText mEvil }] := by decide
    rw [hloop, List.mergeSort_singleton]
    rfl
  have hsecond : syncLogToSessionManager pdFive 5
      [stagedToEntry { timestamp := 5, text := composedText mEvil }] [some mEvil] none =
      ([stagedToEntry { timestamp := 5, text := composedText mEvil },
        stagedToEntry { timestamp := 5, text := composedText mEvil }], 1) := by
    rw [syncLog_eq]
    have hloop : syncLoop pdFive 5 none [some mEvil]
        (buildExisting [stagedToEntry { timestamp := 5, text := composedText mEvil }]) =
        [{ timestamp := 5, text := composedText mEvil }] := by decide
    rw [hloop, List.mergeSort_singleton]
    rfl
  rw [hfirst]
  rw [hsecond]
  refine ⟨rfl, ?_⟩
  decide

/-- C2 (amended): sync is idempotent provided no log line's composed text
itself begins with the timestamp-bracket pattern that the normalizer
strips (for example, whenever display names do not mimic
`yyyy-mm-dd hh:mm:ss+hh:mm] `): a second call with the same log lines
returns 0 and leaves the history unchanged, at any later clock value. -/
theorem sync_idempotent (pd : String → Option Int) (now1 now2 : Int)
    (entries : List SessionEntry) (lines : List (Option LogMessage)) (ex : Option String)
    (hclean : ∀ m ∈ lines.filterMap id, startsWithTsStamp (composedText m).data = false) :
    syncLogToSessionManager pd now2 (syncLogToSessionManager pd now1 entries lines ex).1
        lines ex =
      ((syncLogToSessionManager pd now1 entries lines ex).1, 0) := by
  have key : ∀ m, some m ∈ lines → passesFilters ex m →
      composedText m ∈
        buildExisting (syncLogToSessionManager pd now1 entries lines ex).1 := by
    intro m hm hp
    rw [syncLog_fst, buildExisting, List.flatMap_append]
    rcases syncLoop_covers pd now1 ex lines (buildExisting entries) m hm hp with hin | hin
    · -- already in the set built from the initial entries
      exact List.mem_append_left _ hin
    · -- among the staged texts of the first run
      obtain ⟨st, hst, htext⟩ := List.mem_map.mp hin
      obtain ⟨m', hm', htext'⟩ :=
        syncLoop_text_src pd now1 ex lines (buildExisting entries) st hst
      have hstamp : startsWithTsStamp st.text.data = false := by
        rw [htext']
        exact hclean m' (List.mem_filterMap.mpr ⟨some m', hm', rfl⟩)
      refine List.mem_append_right _ (List.mem_flatMap.mpr ⟨stagedToEntry st, ?_, ?_⟩)
      · exact List.mem_map_of_mem _ (List.mem_mergeSort.mpr hst)
      · have hstamp' : startsWithTsStamp (composedText m).data = false := htext ▸ hstamp
        simp [stagedToEntry, entryTexts, stripTsStamp, htext, hstamp']
  have hnil :
      syncLoop pd now2 ex lines
        (buildExisting (syncLogToSessionManager pd now1 entries lines ex).1) = [] :=
    syncLoop_eq_nil pd now2 ex lines _ key
  rw [syncLog_eq pd now2, hnil]
  simp

/-- Witness for C2 (amended): one ordinary line; the second sync returns
0 and leaves the single appended entry in place. -/
theorem sync_idempotent_witness :
    syncLogToSessionManager pdFive 9
        (syncLogToSessionManager pdFive 5 [] [some mAlice] none).1 [some mAlice] none =
      ((syncLogToSessionManager pdFive 5 [] [some mAlice] none).1, 0) :=
  sync_idempotent pdFive 5 9 [] [some mAlice] none (by decide)

/-! ## Claim C7 -/

/-- Counterexample to C7 as stated: the line `mNoDate` is well-formed
JSON, has its identity `ts`, is not excluded (no `excludeId`), and is not
bot-authored — it is missing only its timestamp `date`, so by the claim
(which only skips lines missing BOTH identity and timestamp) it should be
staged, yet the code skips it (`!ts || !date`): the sync returns 0 and
appends nothing. -/
theorem sync_line_handling_cex :
    mNoDate.ts = some "1" ∧ mNoDate.isBot = none ∧
    syncLogToSessionManager pdFive 7 [] [some mNoDate] none = ([], 0) := by
  decide

/-- C7 (amended): per log line, malformed JSON is skipped while the scan
continues; a line missing its identity (ts) OR its timestamp (date) (or
with either empty) is skipped; a line whose ts equals a nonempty
excludeId is skipped; a bot-authored line is skipped; any other line
whose composed text is already in the normalized ingested set is
deduplicated away; and any other line whose composed text is new is
staged and ends up appended to the history. -/
theorem sync_line_handling (pd : String → Option Int) (now : Int) (ex : Option String)
    (entries : List SessionEntry) (rest : List (Option LogMessage)) (m : LogMessage) :
    (syncLogToSessionManager pd now entries (none :: rest) ex =
      syncLogToSessionManager pd now entries rest ex) ∧
    (¬passesFilters ex m →
      syncLogToSessionManager pd now entries (some m :: rest) ex =
        syncLogToSessionManager pd now entries rest ex) ∧
    (passesFilters ex m → composedText m ∈ buildExisting entries →
      syncLogToSessionManager pd now entries (some m :: rest) ex =
        syncLogToSessionManager pd now entries rest ex) ∧
    (passesFilters ex m → composedText m ∉ buildExisting entries →
      stagedToEntry
          { timestamp := jsOrNow (pd (m.date.getD "")) now, text := composedText m } ∈
        (syncLogToSessionManager pd now entries (some m :: rest) ex).1) := by
  refine ⟨?_, ?_, ?_, ?_⟩
  · rw [syncLog_eq, syncLog_eq, syncLoop]
  · intro hp
    rw [syncLog_eq, syncLog_eq, syncLoop_cons_skip pd now ex m rest _ hp]
  · intro hp hmem
    have h4 : (buildExisting entries).contains (composedText m) = true := by
      simpa [List.contains] using List.elem_eq_true_of_mem hmem
    rw [syncLog_eq, syncLog_eq, syncLoop_cons_passes pd now ex m rest _ hp, if_pos h4]
  · intro hp hmem
    have h4 : (buildExisting entries).contains (composedText m) ≠ true := by
      simp [List.contains, hmem]
    have hstep := syncLoop_cons_passes pd now ex m rest (buildExisting entries) hp
    rw [if_neg h4] at hstep
    rw [syncLog_fst, hstep]
    refine List.mem_append_right _ (List.mem_map_of_mem _ ?_)
    exact List.mem_mergeSort.mpr (List.mem_cons_self _ _)

/-- Witness for C7 (amended): a malformed line and a date-missing line
are skipped, a bot line is skipped, and a fresh valid line is staged and
appended. -/
theorem sync_line_handling_witness :
    (syncLogToSessionManager pdFive 7 [] [none, some mAlice] none =
      syncLogToSessionManager pdFive 7 [] [some mAlice] none) ∧
    (syncLogToSessionManager pdFive 7 [] [some mNoDate] none =
      syncLogToSessionManager pdFive 7 [] [] none) ∧
    (syncLogToSessionManager pdFive 7 [] [some mBot] none =
      syncLogToSessionManager pdFive 7 [] [] none) ∧
    stagedToEntry { timestamp := 5, text := composedText mAlice } ∈
      (syncLogToSessionManager pdFive 7 [] [some mAlice] none).1 := by
  refine ⟨(sync_line_handling pdFive 7 none [] [some mAlice] mAlice).1,
    (sync_line_handling pdFive 7 none [] [] mNoDate).2.1 (by decide),
    (sync_line_handling pdFive 7 none [] [] mBot).2.1 (by decide), ?_⟩
  have h := (sync_line_handling pdFive 7 none [] [] mAlice).2.2.2 (by decide) (by decide)
  simpa [pdFive, jsOrNow, mAlice] using h

/-! ## Claim C1 -/

/-- C1: for every run of a topic turn — the direct message path
(`handleMessage`, entered with the topic not busy and the log write
having succeeded) and the scheduled-event path (`handleEvent`, entered
with the topic not busy) — the running flag is written exactly twice: set
to true at run entry and reset to false at run exit, whatever the
outcomes of the typing indicator, the turn executor, the error-notice
send and the trailing typing call; and the final state of the flag is
false in every case, including when the call itself still rethrows. -/
theorem running_flag_cleared (dedupeHit : Bool) (e : LogMessage)
    (busySendRes typingOnRes runRes errNoticeRes typingOffRes runRes2 errNoticeRes2 :
      Except String Unit) :
    (handleMessageFlow false dedupeHit e (.ok ()) busySendRes typingOnRes runRes
        errNoticeRes typingOffRes).flagWrites = [true, false] ∧
    (handleMessageFlow false dedupeHit e (.ok ()) busySendRes typingOnRes runRes
        errNoticeRes typingOffRes).finalRunning = false ∧
    (handleEventFlow false runRes2 errNoticeRes2).flagWrites = [true, false] ∧
    (handleEventFlow false runRes2 errNoticeRes2).finalRunning = false := by
  cases dedupeHit <;> cases typingOnRes <;> cases runRes <;> cases typingOffRes <;>
    cases runRes2 <;>
    simp [handleMessageFlow, handleEventFlow]

/-! ## Claim C4 -/

/-- C4: for a one-shot trigger whose `firesAt` is not in the future
(delay at most 0), the event fires immediately exactly when the file
modification time is after the scheduler start time, and is otherwise
deleted without firing (also when `statSync` fails, `mtime = none`);
when the delay is positive, a deferred timer for exactly that delay is
scheduled and nothing is executed or deleted now. -/
theorem handleOneShot_spec (startTime now triggerTime : Int) (mtime : Option Int) :
    (triggerTime - now ≤ 0 → ∀ mm, mtime = some mm → startTime < mm →
      handleOneShot startTime now triggerTime mtime = .fireNow) ∧
    (triggerTime - now ≤ 0 → (∀ mm, mtime = some mm → mm ≤ startTime) →
      handleOneShot startTime now triggerTime mtime = .deleteOnly) ∧
    (0 < triggerTime - now →
      handleOneShot startTime now triggerTime mtime = .scheduleTimer (triggerTime - now)) := by
  refine ⟨?_, ?_, ?_⟩
  · intro hle mm hmt hgt
    subst hmt
    simp [handleOneShot, hle, hgt]
  · intro hle hstale
    match mtime with
    | none => simp [handleOneShot, hle]
    | some mm =>
      have := hstale mm rfl
      simp [handleOneShot, hle]
      omega
  · intro hpos
    have : ¬triggerTime - now ≤ 0 := by omega
    simp [handleOneShot, this]

/-- Witness for C4: a stale past-due trigger (mtime 3 before start 8) is
deleted, a past-due trigger deposited after start (mtime 9) fires, and a
future trigger gets a timer for its delay. -/
theorem handleOneShot_spec_witness :
    handleOneShot 8 10 5 (some 3) = .deleteOnly ∧
    handleOneShot 8 10 5 (some 9) = .fireNow ∧
    handleOneShot 8 0 9 (some 3) = .scheduleTimer 9 := by
  refine ⟨(handleOneShot_spec 8 10 5 (some 3)).2.1 (by decide) ?_,
    (handleOneShot_spec 8 10 5 (some 9)).1 (by decide) 9 rfl (by decide),
    (handleOneShot_spec 8 0 9 (some 3)).2.2 (by decide)⟩
  intro mm hmm
  cases hmm
  decide

/-! ## Claim C5 -/

/-- C5: for every fired event that reaches hand-off (topic not busy),
with the `deleteAfter` flag each call site of `execute` actually passes:
an Immediate or OneShot event has its source file deleted, and the
deletion action follows the handler invocation regardless of the eventual
success or failure of the handler promise; a Periodic event is never
deleted by the scheduler; and the action sequence is entirely independent
of the handler outcome. -/
theorem execute_deletes_per_variant (filename s t x a sch tz : String)
    (ev : MomEvent) (da : Bool) (hr hr' : Except String Unit) :
    executeActs filename (.immediate s t x) (callSiteDeleteAfter (.immediate s t x))
        false hr =
      [.invokeHandler (eventMessage filename (.immediate s t x)), .deleteSourceFile] ∧
    executeActs filename (.oneShot s t x a) (callSiteDeleteAfter (.oneShot s t x a))
        false hr =
      [.invokeHandler (eventMessage filename (.oneShot s t x a)), .deleteSourceFile] ∧
    executeActs filename (.periodic s t x sch tz)
        (callSiteDeleteAfter (.periodic s t x sch tz)) false hr =
      [.invokeHandler (eventMessage filename (.periodic s t x sch tz))] ∧
    executeActs filename ev da false hr = executeActs filename ev da false hr' := by
  refine ⟨rfl, rfl, rfl, rfl⟩

/-! ## Claim C6 -/

/-- Counterexample to C6 as stated: a completed turn whose final text is
exactly `[SILENT]` but whose completion status indicates failure
(`stopReason = "error"` with a truthy error message) still delivers an
outbound message — the best-effort error notice of the run tail — so
"no outbound message is delivered" does not hold for every silent turn.
No bot log entry is written, as claimed. -/
theorem silent_turn_cex :
    jsTrim "[SILENT]" = "[SILENT]" ∧
    (runTail "[SILENT]" "error" (some "boom")).1 = ["❌ Error: boom"] ∧
    (runTail "[SILENT]" "error" (some "boom")).2 = [] := by
  decide

/-- C6 (amended): when the trimmed final text is exactly `[SILENT]` or
begins with it, the final text is not delivered and no bot entry is
logged — the only possible outbound message is the best-effort error
notice sent when the completion status indicates failure; when the
trimmed final text is non-empty and does not begin with the sentinel, the
text is delivered and appended to the log as a bot entry (again possibly
followed by the error notice). -/
theorem silent_turn_suppresses (finalText stopReason : String)
    (errorMessage : Option String) :
    ((jsTrim finalText == "[SILENT]" ||
        jsStartsWith (jsTrim finalText) "[SILENT]") = true →
      (runTail finalText stopReason errorMessage).2 = [] ∧
      (runTail finalText stopReason errorMessage).1 =
        errNoticeSends stopReason errorMessage) ∧
    ((jsTrim finalText == "[SILENT]" ||
        jsStartsWith (jsTrim finalText) "[SILENT]") = false →
      (jsTrim finalText == "") = false →
      (runTail finalText stopReason errorMessage).1 =
        finalText :: errNoticeSends stopReason errorMessage ∧
      (runTail finalText stopReason errorMessage).2 = [finalText]) := by
  constructor
  · intro hsil
    simp [runTail, hsil]
  · intro hsil hne
    simp [runTail, hsil, hne]

/-- Witness for C6 (amended): the exact sentinel suppresses delivery and
logging on a successful turn; a plain reply is delivered and logged. -/
theorem silent_turn_suppresses_witness :
    (runTail "[SILENT]" "stop" none).2 = [] ∧
    (runTail "[SILENT]" "stop" none).1 = errNoticeSends "stop" none ∧
    (runTail "hello" "stop" none).1 = "hello" :: errNoticeSends "stop" none ∧
    (runTail "hello" "stop" none).2 = ["hello"] := by
  refine ⟨((silent_turn_suppresses "[SILENT]" "stop" none).1 (by decide)).1,
    ((silent_turn_suppresses "[SILENT]" "stop" none).1 (by decide)).2,
    ((silent_turn_suppresses "hello" "stop" none).2 (by decide) (by decide)).1,
    ((silent_turn_suppresses "hello" "stop" none).2 (by decide) (by decide)).2⟩

/-! ## Claim C8 -/

/-- No string survives filtering itself out (stated in the normal form
`simp` produces for the predicate `(· ≠ f)`). -/
theorem count_filter_ne (f : String) (l : List String) :
    List.count f (List.filter (fun a => !decide (a = f)) l) = 0 := by
  rw [List.count_eq_zero]
  simp

/-- Cancelling twice equals cancelling once. -/
theorem cancelScheduled_idem (r : Registry) (f : String) :
    cancelScheduled (cancelScheduled r f) f = cancelScheduled r f := by
  simp [cancelScheduled, List.filter_filter]

/-- Counterexample to C8 as stated: a valid Immediate trigger file is
discovered (it parses, and is executed), yet after its discovery is
processed NO ScheduledHandle exists keyed by its filename — immediate
events never register a handle, so "exactly one handle per valid trigger
file" fails. -/
theorem registry_one_handle_cex :
    handleCount
        (handleFileChange (fun _ => some 100) (fun _ _ => true) 0
          { timers := [], crons := [] } "e.json"
          (some (some (.immediate "s" "t" "hi")))) "e.json" = 0 := by
  decide

/-- C8 (amended): after a discovery is processed, exactly one
ScheduledHandle keyed by the filename exists for a valid OneShot trigger
whose delay is positive and for a valid Periodic trigger whose cron
parses; an Immediate trigger, a past-due OneShot and a Periodic with an
invalid cron leave no handle; a deletion notification removes any handle
for the filename; and processing a notification for a present file first
cancels any existing handle for that name, so rewriting a file behaves
exactly as if no handle had existed. -/
theorem registry_one_handle (pd : String → Option Int) (cronOk : String → String → Bool)
    (now : Int) (r : Registry) (f : String) (s t x a sch tz : String)
    (c : Option (Option MomEvent)) :
    (delayLE0 pd now a = false →
      handleCount (handleFileChange pd cronOk now r f (some (some (.oneShot s t x a)))) f
        = 1) ∧
    (cronOk sch tz = true →
      handleCount
          (handleFileChange pd cronOk now r f (some (some (.periodic s t x sch tz)))) f
        = 1) ∧
    handleCount (handleFileChange pd cronOk now r f (some (some (.immediate s t x)))) f
      = 0 ∧
    (delayLE0 pd now a = true →
      handleCount (handleFileChange pd cronOk now r f (some (some (.oneShot s t x a)))) f
        = 0) ∧
    (cronOk sch tz = false →
      handleCount
          (handleFileChange pd cronOk now r f (some (some (.periodic s t x sch tz)))) f
        = 0) ∧
    handleCount (handleFileChange pd cronOk now r f none) f = 0 ∧
    handleFileChange pd cronOk now r f c =
      handleFileChange pd cronOk now (cancelScheduled r f) f c := by
  refine ⟨?_, ?_, ?_, ?_, ?_, ?_, ?_⟩
  · intro h
    simp [handleFileChange, dispatchRegistry, h, cancelScheduled, handleCount,
      count_filter_ne, List.count_cons_self]
  · intro h
    simp [handleFileChange, dispatchRegistry, h, cancelScheduled, handleCount,
      count_filter_ne, List.count_cons_self]
  · simp [handleFileChange, dispatchRegistry, cancelScheduled, handleCount,
      count_filter_ne]
  · intro h
    simp [handleFileChange, dispatchRegistry, h, cancelScheduled, handleCount,
      count_filter_ne]
  · intro h
    simp [handleFileChange, dispatchRegistry, h, cancelScheduled, handleCount,
      count_filter_ne]
  · simp [handleFileChange, cancelScheduled, handleCount, count_filter_ne]
  · match c with
    | none => simp [handleFileChange, cancelScheduled_idem]
    | some none => simp [handleFileChange, cancelScheduled_idem]
    | some (some ev) => simp [handleFileChange, cancelScheduled_idem]

/-- Witness for C8 (amended): a future one-shot registers exactly one
timer handle, a periodic with an accepted cron registers exactly one cron
handle, and a deletion notification leaves no handle, starting from a
registry that already held a stale handle for the same filename. -/
theorem registry_one_handle_witness :
    handleCount
        (handleFileChange (fun _ => some 100) (fun _ _ => true) 0
          { timers := ["e.json"], crons := [] } "e.json"
          (some (some (.oneShot "s" "t" "x" "later")))) "e.json" = 1 ∧
    handleCount
        (handleFileChange (fun _ => some 100) (fun _ _ => true) 0
          { timers := ["e.json"], crons := [] } "e.json"
          (some (some (.periodic "s" "t" "x" "0 9 * * *" "UTC")))) "e.json" = 1 ∧
    handleCount
        (handleFileChange (fun _ => some 100) (fun _ _ => true) 0
          { timers := ["e.json"], crons := [] } "e.json" none) "e.json" = 0 := by
  refine ⟨(registry_one_handle (fun _ => some 100) (fun _ _ => true) 0
      { timers := ["e.json"], crons := [] } "e.json" "s" "t" "x" "later" "0 9 * * *" "UTC"
      none).1 (by decide),
    (registry_one_handle (fun _ => some 100) (fun _ _ => true) 0
      { timers := ["e.json"], crons := [] } "e.json" "s" "t" "x" "later" "0 9 * * *" "UTC"
      none).2.1 rfl,
    (registry_one_handle (fun _ => some 100) (fun _ _ => true) 0
      { timers := ["e.json"], crons := [] } "e.json" "s" "t" "x" "later" "0 9 * * *" "UTC"
      none).2.2.2.2.2.1⟩

/-! ## Claim C9 -/

/-- `Char.ofNat` keeps a code below the surrogate range. -/
theorem toNat_ofNat_small (n : Nat) (h : n < 55296) : (Char.ofNat n).toNat = n := by
  have hv : Nat.isValidChar n := Or.inl h
  rw [Char.ofNat, dif_pos hv]
  simp [Char.ofNatAux, Char.toNat, UInt32.toNat, BitVec.toNat_ofNatLt]

/-- `Char.toLower` either keeps a character (outside the ASCII uppercase
range 65..90) or adds 32 to its code. -/
theorem toLower_cases (c : Char) :
    (Char.toLower c = c ∧ ¬(65 ≤ c.toNat ∧ c.toNat ≤ 90)) ∨
    ((Char.toLower c).toNat = c.toNat + 32 ∧ 65 ≤ c.toNat ∧ c.toNat ≤ 90) := by
  by_cases h : 65 ≤ c.toNat ∧ c.toNat ≤ 90
  · right
    refine ⟨?_, h⟩
    simp only [Char.toLower]
    rw [if_pos h]
    exact toNat_ofNat_small (c.toNat + 32) (by omega)
  · left
    refine ⟨?_, h⟩
    simp only [Char.toLower]
    rw [if_neg h]

/-- `Char.isUpper` tests exactly the code range 65..90. -/
theorem isUpper_iff (c : Char) : c.isUpper = true ↔ (65 ≤ c.toNat ∧ c.toNat ≤ 90) := by
  simp only [Char.isUpper, Bool.and_eq_true, decide_eq_true_eq]
  constructor
  · intro ⟨h1, h2⟩
    exact ⟨h1, h2⟩
  · intro ⟨h1, h2⟩
    exact ⟨h1, h2⟩

/-- Replacing a bad character never produces a bad character. -/
theorem isBadChar_replBad (c : Char) : isBadChar (replBad c) = false := by
  cases hb : isBadChar c
  · rw [replBad, if_neg (by simp [hb])]
    exact hb
  · rw [replBad, if_pos hb]
    decide

/-- `replBad` sends whitespace to itself (no bad character is
whitespace) and non-whitespace to non-whitespace. -/
theorem isJsSpace_replBad (c : Char) : isJsSpace (replBad c) = isJsSpace c := by
  cases hb : isBadChar c
  · rw [replBad, if_neg (by simp [hb])]
  · rw [replBad, if_pos hb]
    have : isJsSpace c = false := by
      simp only [isBadChar, Bool.or_eq_true, beq_iff_eq] at hb
      simp only [isJsSpace, Bool.or_eq_false_iff, Bool.and_eq_false_iff,
        beq_eq_false_iff_ne, ne_eq, decide_eq_false_iff_not]
      omega
    rw [this]
    decide

/-- Every character of the collapse output is the dash or a
non-whitespace character of the input. -/
theorem mem_collapseWsAux :
    ∀ (l : List Char) (b : Bool) (c : Char), c ∈ collapseWsAux b l →
      c = '-' ∨ (c ∈ l ∧ isJsSpace c = false) := by
  intro l
  induction l with
  | nil => intro b c h; simp [collapseWsAux] at h
  | cons hd tl ih =>
    intro b c h
    rw [collapseWsAux] at h
    by_cases hs : isJsSpace hd = true
    · rw [if_pos hs] at h
      cases b with
      | true =>
        rcases ih true c (by simpa using h) with h' | ⟨hm, hw⟩
        · exact Or.inl h'
        · exact Or.inr ⟨List.mem_cons_of_mem _ hm, hw⟩
      | false =>
        have h0 : c ∈ '-' :: collapseWsAux true tl := by simpa using h
        rcases List.mem_cons.mp h0 with rfl | h'
        · exact Or.inl rfl
        · rcases ih true c h' with h'' | ⟨hm, hw⟩
          · exact Or.inl h''
          · exact Or.inr ⟨List.mem_cons_of_mem _ hm, hw⟩
    · rw [if_neg hs] at h
      rcases List.mem_cons.mp h with rfl | h'
      · exact Or.inr ⟨List.mem_cons_self _ _, by simpa using hs⟩
      · rcases ih false c h' with h'' | ⟨hm, hw⟩
        · exact Or.inl h''
        · exact Or.inr ⟨List.mem_cons_of_mem _ hm, hw⟩

/-- Collapsing a whitespace-free list is the identity, whatever the
flag. -/
theorem collapseWsAux_eq_self :
    ∀ (l : List Char) (b : Bool), (∀ c ∈ l, isJsSpace c = false) →
      collapseWsAux b l = l := by
  intro l
  induction l with
  | nil => intro b _; rfl
  | cons hd tl ih =>
    intro b h
    have hhd : isJsSpace hd = false := h hd (List.mem_cons_self _ _)
    rw [collapseWsAux, if_neg (by simp [hhd])]
    rw [ih false fun c hc => h c (List.mem_cons_of_mem _ hc)]

/-- A map that fixes every element of a list is the identity on it. -/
theorem map_eq_self_of_fixes {α : Type} (f : α → α) :
    ∀ (l : List α), (∀ c ∈ l, f c = c) → l.map f = l := by
  intro l
  induction l with
  | nil => intro _; rfl
  | cons hd tl ih =>
    intro h
    rw [List.map_cons, h hd (List.mem_cons_self _ _),
      ih fun c hc => h c (List.mem_cons_of_mem _ hc)]

/-- Every character of the sanitizer output avoids the bad set, the
whitespace class, and the ASCII uppercase range. -/
theorem sanitizeL_clean (cs : List Char) :
    ∀ c ∈ sanitizeL cs, isBadChar c = false ∧ isJsSpace c = false ∧
      ¬(65 ≤ c.toNat ∧ c.toNat ≤ 90) := by
  intro c hc
  have hc' : c ∈ (collapseWs (cs.map replBad)).map Char.toLower :=
    List.mem_of_mem_take hc
  obtain ⟨c', hc'', rfl⟩ := List.mem_map.mp hc'
  rcases mem_collapseWsAux (cs.map replBad) false c' hc'' with rfl | ⟨hmem, hws⟩
  · exact ⟨by decide, by decide, by decide⟩
  · obtain ⟨c₀, _, rfl⟩ := List.mem_map.mp hmem
    have hbad : isBadChar (replBad c₀) = false := isBadChar_replBad c₀
    rcases toLower_cases (replBad c₀) with ⟨heq, hng⟩ | ⟨hn, hub⟩
    · rw [heq]
      exact ⟨hbad, hws, hng⟩
    · refine ⟨?_, ?_, ?_⟩
      · simp only [isBadChar, hn, Bool.or_eq_false_iff, beq_eq_false_iff_ne, ne_eq]
        omega
      · simp only [isJsSpace, hn, Bool.or_eq_false_iff, Bool.and_eq_false_iff,
          beq_eq_false_iff_ne, ne_eq, decide_eq_false_iff_not]
        omega
      · rw [hn]
        omega

/-- The sanitizer output never exceeds 100 characters. -/
theorem sanitizeL_length (cs : List Char) : (sanitizeL cs).length ≤ 100 := by
  rw [sanitizeL]
  exact List.length_take_le 100 _

/-- On its own output the sanitizer is the identity. -/
theorem sanitizeL_idem (cs : List Char) : sanitizeL (sanitizeL cs) = sanitizeL cs := by
  have hclean := sanitizeL_clean cs
  conv_lhs => rw [sanitizeL]
  rw [map_eq_self_of_fixes replBad (sanitizeL cs) fun c hc => by
    rw [replBad, if_neg (by simp [(hclean c hc).1])]]
  rw [collapseWs, collapseWsAux_eq_self (sanitizeL cs) false fun c hc => (hclean c hc).2.1]
  rw [map_eq_self_of_fixes Char.toLower (sanitizeL cs) fun c hc => by
    rcases toLower_cases c with ⟨heq, _⟩ | ⟨_, hub⟩
    · exact heq
    · exact absurd hub (hclean c hc).2.2]
  exact List.take_of_length_le (sanitizeL_length cs)

/-- C9: the output of the topic-name sanitizer is at most 100 characters
long, contains no character of the replaced set, no whitespace and no
ASCII uppercase letter (the lower-casing modelled on the ASCII range),
and the sanitizer is idempotent. -/
theorem sanitize_clean_and_idem (s : String) :
    (sanitize s).length ≤ 100 ∧
    (∀ c ∈ (sanitize s).data, isBadChar c = false ∧ isJsSpace c = false ∧
      c.isUpper = false) ∧
    sanitize (sanitize s) = sanitize s := by
  refine ⟨?_, ?_, ?_⟩
  · show (sanitizeL s.data).length ≤ 100
    exact sanitizeL_length s.data
  · intro c hc
    have h := sanitizeL_clean s.data c hc
    refine ⟨h.1, h.2.1, ?_⟩
    cases hU : c.isUpper
    · rfl
    · exact absurd ((isUpper_iff c).mp hU) h.2.2
  · show String.mk (sanitizeL (sanitizeL s.data)) = String.mk (sanitizeL s.data)
    rw [sanitizeL_idem]

/-- Witness for C9: a concrete input evaluated through the theorem. -/
theorem sanitize_clean_and_idem_witness :
    (sanitize "A B?").length ≤ 100 ∧
    (isBadChar 'a' = false ∧ isJsSpace 'a' = false ∧ 'a'.isUpper = false) ∧
    sanitize (sanitize "A B?") = sanitize "A B?" :=
  ⟨(sanitize_clean_and_idem "A B?").1,
   (sanitize_clean_and_idem "A B?").2.1 'a' (by decide),
   (sanitize_clean_and_idem "A B?").2.2⟩

/-! ## Claim C10 -/

/-- C10: a direct user message arriving while its topic is busy is still
appended to the topic log before the busy check (the flow logs `[e]`),
is answered only with the fixed still-working notice, and does not run a
turn; and the logged entry is then backfilled rather than lost: any later
sync over log lines containing it (when it passes the structural filters
and its composed text is not already in the history) appends a user
history entry carrying exactly its composed text. -/
theorem busy_message_persisted_and_backfilled (e : LogMessage)
    (busySendRes typingOnRes runRes errNoticeRes typingOffRes : Except String Unit)
    (pd : String → Option Int) (now : Int) (entries : List SessionEntry)
    (lines : List (Option LogMessage)) (ex : Option String)
    (hmem : some e ∈ lines) (hp : passesFilters ex e)
    (hnew : composedText e ∉ buildExisting entries) :
    (handleMessageFlow true false e (.ok ()) busySendRes typingOnRes runRes
        errNoticeRes typingOffRes).logAppended = [e] ∧
    (handleMessageFlow true false e (.ok ()) busySendRes typingOnRes runRes
        errNoticeRes typingOffRes).sent = [stillWorkingNotice] ∧
    (handleMessageFlow true false e (.ok ()) busySendRes typingOnRes runRes
        errNoticeRes typingOffRes).ranTurn = false ∧
    ∃ t : Int,
      SessionEntry.message
          { role := "user", content := .parts [.text (composedText e)], timestamp := t } ∈
        (syncLogToSessionManager pd now entries lines ex).1 := by
  refine ⟨rfl, rfl, rfl, ?_⟩
  rcases syncLoop_covers pd now ex lines (buildExisting entries) e hmem hp with hin | hin
  · exact absurd hin hnew
  · obtain ⟨st, hst, htext⟩ := List.mem_map.mp hin
    refine ⟨st.timestamp, ?_⟩
    have hent : stagedToEntry st ∈ (syncLogToSessionManager pd now entries lines ex).1 := by
      rw [syncLog_fst]
      exact List.mem_append_right _
        (List.mem_map_of_mem _ (List.mem_mergeSort.mpr hst))
    have : stagedToEntry st =
        SessionEntry.message
          { role := "user", content := .parts [.text (composedText e)],
            timestamp := st.timestamp } := by
      rw [stagedToEntry, htext]
    rw [← this]
    exact hent

/-- Witness for C10: the concrete line `mAlice` rejected while busy is
logged, answered with the notice, not run, and backfilled by the next
sync into an empty history. -/
theorem busy_message_persisted_and_backfilled_witness :
    (handleMessageFlow true false mAlice (.ok ()) (.ok ()) (.ok ()) (.ok ())
        (.ok ()) (.ok ())).logAppended = [mAlice] ∧
    (handleMessageFlow true false mAlice (.ok ()) (.ok ()) (.ok ()) (.ok ())
        (.ok ()) (.ok ())).sent = [stillWorkingNotice] ∧
    (handleMessageFlow true false mAlice (.ok ()) (.ok ()) (.ok ()) (.ok ())
        (.ok ()) (.ok ())).ranTurn = false ∧
    ∃ t : Int,
      SessionEntry.message
          { role := "user", content := .parts [.text (composedText mAlice)],
            timestamp := t } ∈
        (syncLogToSessionManager pdFive 7 [] [some mAlice] none).1 :=
  busy_message_persisted_and_backfilled mAlice (.ok ()) (.ok ()) (.ok ()) (.ok ())
    (.ok ()) pdFive 7 [] [some mAlice] none (by decide) (by decide) (by decide)

end ZulipAgent
